import Mathlib

/-!
Shallow embedding of `app.py`, a single-user quiz-session Streamlit app.

The script is a single rerun loop: it loads a cached question bank, keeps a
per-user progress record and a session dict in `st.session_state`, and handles
the Start / Submit / Next / New Session buttons plus a timer block.  Pure data
is translated directly; the handlers become explicit state transitions on an
`AppState`; randomness (`random.sample`, `random.shuffle`) and the wall clock
(`time.time()`) enter as explicit oracle arguments.
-/

namespace Quiz

/-- A question record from the bundled dataset (`questions.json` schema):
`{id, system, question, options[], answer, explanation}`. -/
structure Question where
  id : Nat
  system : String
  question : String
  options : List String
  answer : String
  explanation : String
deriving DecidableEq

/-- Per-question attempt counters kept in `progress["stats"]` by `save_stats`.
`last_seen` is `none` until the first `save_stats` call stamps it. -/
structure QStats where
  attempts : Nat
  correct : Nat
  incorrect : Nat
  last_seen : Option Nat
deriving DecidableEq

/-- Assoc-list model of a Python `dict` keyed by question id. -/
def alLookup {α : Type} (l : List (Nat × α)) (k : Nat) : Option α :=
  match l with
  | [] => none
  | (k2, v) :: t => if k2 = k then some v else alLookup t k

/-- Store `l[k] = v` in the assoc-list model of a `dict`. -/
def alUpdate {α : Type} (l : List (Nat × α)) (k : Nat) (v : α) : List (Nat × α) :=
  match l with
  | [] => [(k, v)]
  | (k2, v2) :: t => if k2 = k then (k, v) :: t else (k2, v2) :: alUpdate t k v

/-- Per-user persisted progress (`load_user`); the list-valued JSON fields are
converted to sets right after login, modelled as `Finset Nat`. -/
structure UserProgress where
  attempted : Finset Nat
  correct : Finset Nat
  incorrect : Finset Nat
  marked : Finset Nat
  confidence : List (Nat × String)
  stats : List (Nat × QStats)
deriving DecidableEq

/-- Fresh-user defaults returned by `load_user` when no file exists (after the
list-to-set conversion). -/
def emptyProgress : UserProgress :=
  { attempted := ∅, correct := ∅, incorrect := ∅, marked := ∅
    confidence := [], stats := [] }

/-- `save_stats(qid, correct)`: `setdefault` the zeroed record, bump `attempts`
and exactly one of `correct`/`incorrect`, and stamp `last_seen`. -/
def save_stats (stats : List (Nat × QStats)) (qid : Nat) (correct : Bool) (now : Nat) :
    List (Nat × QStats) :=
  let cur := (alLookup stats qid).getD
    { attempts := 0, correct := 0, incorrect := 0, last_seen := none }
  alUpdate stats qid
    { attempts := cur.attempts + 1
      correct := cur.correct + (if correct then 1 else 0)
      incorrect := cur.incorrect + (if correct then 0 else 1)
      last_seen := some now }

/-- Progress effect of the Submit handler (`app.py` lines 220-223): add `qid`
to `attempted`, add it to `correct` or to `incorrect` according to
`wasCorrect` (the other set is left as it is), and update `stats`. -/
def recordAttempt (p : UserProgress) (qid : Nat) (wasCorrect : Bool) (now : Nat) :
    UserProgress :=
  { p with
    attempted := insert qid p.attempted
    correct := if wasCorrect then insert qid p.correct else p.correct
    incorrect := if wasCorrect then p.incorrect else insert qid p.incorrect
    stats := save_stats p.stats qid wasCorrect now }

/-- Fold a sequence of Submit-handler progress updates over a fresh user:
each entry is (qid, wasCorrect, timestamp). -/
def runAttempts (l : List (Nat × Bool × Nat)) : UserProgress :=
  l.foldl (fun p x => recordAttempt p x.1 x.2.1 x.2.2) emptyProgress

/-- The session dict kept in `st.session_state.state`.  `start_time: None` is
modelled as 0; it is only read once `started` is set. -/
structure SessionState where
  started : Bool
  start_time : Nat
  current_index : Nat
  session_questions : List Question
  answers : List (Nat × String)
  show_explanation : Bool
  session_over : Bool
  mode : String
  time_limit : Option Nat
deriving DecidableEq

/-- The initial session dict installed when `"state"` is absent. -/
def initSession : SessionState :=
  { started := false, start_time := 0, current_index := 0, session_questions := []
    answers := [], show_explanation := false, session_over := false
    mode := "reading", time_limit := none }

/-- `elapsed() = int(time.time() - state["start_time"])`, in whole seconds. -/
def elapsed (st : SessionState) (now : Nat) : Nat :=
  now - st.start_time

/-- The `allow` predicate of the start handler: one boolean flag per chosen
filter name, `any(flags) if filters else True`. -/
def allow (filters : List String) (p : UserProgress) (q : Question) : Bool :=
  let flags : List Bool :=
    (if "unused" ∈ filters then [decide (q.id ∉ p.attempted)] else []) ++
    (if "incorrect" ∈ filters then [decide (q.id ∈ p.incorrect)] else []) ++
    (if "marked" ∈ filters then [decide (q.id ∈ p.marked)] else [])
  if filters.isEmpty then true else flags.any id

/-- Pool construction in the start handler: keep the selected systems when the
multiselect is nonempty, then keep the questions passing `allow`. -/
def filteredPool (questions : List Question) (selectedSystems filters : List String)
    (p : UserProgress) : List Question :=
  let pool := if selectedSystems.isEmpty then questions
    else questions.filter (fun q => decide (q.system ∈ selectedSystems))
  pool.filter (allow filters p)

/-- `random.shuffle(q["options"])` with the random permutation supplied as an
oracle `perm`; `random.shuffle` always produces a permutation of the list, so
an oracle that is not a permutation of the index range is read as the identity
shuffle. -/
def applyShuffle (q : Question) (perm : List Nat) : Question :=
  if perm.length = q.options.length ∧ perm.Nodup ∧ ∀ i ∈ perm, i < q.options.length then
    { q with options := perm.filterMap (fun i => q.options[i]?) }
  else q

/-- `random.sample(pool, num_q)` with the sampled positions supplied as an
oracle `sel`; `random.sample` guarantees distinct in-range positions, which is
stated as a hypothesis where a theorem needs it. -/
def sampleAt (pool : List Question) (sel : List Nat) : List Question :=
  sel.filterMap (fun i => pool[i]?)

/-- The per-question shuffle loop `for q in selected: random.shuffle(q["options"])`,
with one permutation oracle per selected question. -/
def shuffleAll (qs : List Question) (perms : List (List Nat)) : List Question :=
  match qs, perms with
  | [], _ => []
  | q :: t, [] => applyShuffle q [] :: shuffleAll t []
  | q :: t, perm :: pt => applyShuffle q perm :: shuffleAll t pt

/-- The Start Session handler (`app.py` lines 125-162): runs only when not
already started; on insufficient filtered pool it warns and stops with the
state unchanged; otherwise it samples `num_q` questions, shuffles each one's
options, and resets the session dict (`time_limit = 90 * num_q` in test mode). -/
def startSession (st : SessionState) (p : UserProgress) (questions : List Question)
    (selectedSystems filters : List String) (numQ : Nat) (mode : String)
    (sel : List Nat) (perms : List (List Nat)) (now : Nat) : SessionState :=
  if st.started then st
  else if (filteredPool questions selectedSystems filters p).length < numQ then st
  else
    { started := true
      start_time := now
      current_index := 0
      session_questions :=
        shuffleAll (sampleAt (filteredPool questions selectedSystems filters p) sel) perms
      answers := []
      show_explanation := false
      session_over := false
      mode := mode
      time_limit := if mode == "test" then some (90 * numQ) else none }

/-- The in-memory state a rerun acts on: the session dict and the logged-in
user's progress. -/
structure AppState where
  session : SessionState
  progress : UserProgress
deriving DecidableEq

/-- State right after a fresh login: initial session dict, fresh progress. -/
def initApp : AppState :=
  { session := initSession, progress := emptyProgress }

/-- One user-visible interaction handled by the script: the sidebar Start
button, the Submit button, the Next button, the timer block of a rerun, and
the New Session button of the summary page.  Randomness and the wall clock
enter as explicit arguments. -/
inductive Op where
  | start (questions : List Question) (selectedSystems filters : List String)
      (numQ : Nat) (mode : String) (sel : List Nat) (perms : List (List Nat)) (now : Nat)
  | submit (choice : String) (now : Nat)
  | next
  | tick (now : Nat)
  | newSession

/-- One interaction step.  Guards mirror which widgets the script renders:
Submit needs a running, not-over session (the summary page stops the script
first); Next additionally needs `show_explanation`; the timer block needs a
running test-mode session; New Session is only on the summary page. -/
def stepOp (a : AppState) (op : Op) : AppState :=
  match op with
  | .start questions selectedSystems filters numQ mode sel perms now =>
      { a with session := (startSession a.session a.progress questions
          selectedSystems filters numQ mode sel perms now) }
  | .submit choice now =>
      if a.session.started && !a.session.session_over then
        match a.session.session_questions[a.session.current_index]? with
        | some q =>
            { session := { a.session with
                answers := alUpdate a.session.answers q.id choice
                show_explanation := a.session.mode == "reading" }
              progress := recordAttempt a.progress q.id (choice == q.answer) now }
        | none => a
      else a
  | .next =>
      if a.session.started && !a.session.session_over && a.session.show_explanation then
        { a with session := { a.session with
            current_index := a.session.current_index + 1
            show_explanation := false
            session_over :=
              decide (a.session.session_questions.length ≤ a.session.current_index + 1) } }
      else a
  | .tick now =>
      if a.session.started && !a.session.session_over && (a.session.mode == "test") then
        match a.session.time_limit with
        | some tl =>
            if (tl : Int) - (elapsed a.session now : Int) ≤ 0 then
              { a with session := { a.session with session_over := true } }
            else a
        | none => a
      else a
  | .newSession =>
      if a.session.session_over then
        { a with session := { a.session with started := false } }
      else a

/-- Run a sequence of interactions from a fresh login. -/
def runOps (ops : List Op) : AppState :=
  ops.foldl stepOp initApp

/-- Summary score (`app.py` lines 178-181): count over the session questions
of `state["answers"].get(q["id"]) == q["answer"]`. -/
def score (st : SessionState) : Nat :=
  st.session_questions.foldl
    (fun acc q => acc + (if alLookup st.answers q.id = some q.answer then 1 else 0)) 0

/-- Review list of the summary page (lines 186-190): question text, the user's
answer with the placeholder for unanswered, the correct answer, explanation. -/
def reviewList (st : SessionState) : List (String × String × String × String) :=
  st.session_questions.map
    (fun q => (q.question, (alLookup st.answers q.id).getD "—", q.answer, q.explanation))

/-- Process-level view of the question store.  `questions.json` is parsed once
and held by `st.cache_data` (`cache`); every script rerun calls
`load_questions()` and receives a fresh deep copy of the cached value
(`questions`), which is the only list the rerun's handlers touch. -/
structure ProcState where
  cache : List Question
  questions : List Question
deriving DecidableEq

/-- `questions = load_questions()` at the top of a rerun: a fresh copy of the
cached value. -/
def loadQuestions (ps : ProcState) : ProcState :=
  { ps with questions := ps.cache }

/-- Positions in the rerun's question list that survive the system and filter
selection; the handler's pool consists of aliases into the rerun copy at
exactly these positions. -/
def poolPositions (questions : List Question) (selectedSystems filters : List String)
    (p : UserProgress) : List Nat :=
  (List.range questions.length).filter (fun i =>
    match questions[i]? with
    | some q => (selectedSystems.isEmpty || decide (q.system ∈ selectedSystems))
        && allow filters p q
    | none => false)

/-- The Start Session handler with the heap made explicit:
`random.shuffle(q["options"])` mutates the sampled records in place, i.e.
updates the rerun copy at the sampled positions, and the session keeps
aliases to those records; nothing writes the `st.cache_data` value. -/
def startSessionProc (ps : ProcState) (st : SessionState) (p : UserProgress)
    (selectedSystems filters : List String) (numQ : Nat) (mode : String)
    (sel : List Nat) (perms : List (List Nat)) (now : Nat) : ProcState × SessionState :=
  if st.started then (ps, st)
  else if (poolPositions ps.questions selectedSystems filters p).length < numQ then (ps, st)
  else
    let chosen := sel.map
      (fun j => (poolPositions ps.questions selectedSystems filters p).getD j 0)
      let questions2 := (List.range chosen.length).foldl
        (fun acc k =>
          let i := chosen.getD k 0
          match acc[i]? with
          | some q => acc.set i (applyShuffle q (perms.getD k []))
          | none => acc)
        ps.questions
      ({ ps with questions := questions2 },
       { started := true
         start_time := now
         current_index := 0
         session_questions := chosen.filterMap (fun i => questions2[i]?)
         answers := []
         show_explanation := false
         session_over := false
         mode := mode
         time_limit := if mode == "test" then some (90 * numQ) else none })

/-! ### Concrete states used by witnesses -/

/-- A concrete question used to instantiate theorems with hypotheses. -/
def demoQ1 : Question :=
  { id := 1, system := "cardio", question := "Q1", options := ["A", "B"]
    answer := "A", explanation := "E1" }

/-- A second concrete question with a distinct id. -/
def demoQ2 : Question :=
  { id := 2, system := "renal", question := "Q2", options := ["C", "D"]
    answer := "C", explanation := "E2" }

/-- A running one-question session in reading mode. -/
def demoApp : AppState :=
  { session := { initSession with started := true, session_questions := [demoQ1] }
    progress := emptyProgress }

/-- A finished session with question 1 answered correctly and question 2 left
unanswered. -/
def demoOverSession : SessionState :=
  { initSession with
      started := true
      current_index := 2
      session_questions := [demoQ1, demoQ2]
      answers := [(1, "A")]
      session_over := true }

/-! ### Helper lemmas -/

theorem alLookup_alUpdate {α : Type} (l : List (Nat × α)) (k k2 : Nat) (v : α) :
    alLookup (alUpdate l k v) k2 = if k = k2 then some v else alLookup l k2 := by
  induction l with
  | nil => simp [alLookup, alUpdate]
  | cons h t ih =>
      obtain ⟨k3, v3⟩ := h
      by_cases hk : k3 = k <;> by_cases hk2 : k3 = k2 <;> by_cases hkk : k = k2 <;>
        simp_all [alLookup, alUpdate]

theorem applyShuffle_id (q : Question) (perm : List Nat) :
    (applyShuffle q perm).id = q.id := by
  unfold applyShuffle
  split <;> rfl

theorem shuffleAll_length (qs : List Question) (perms : List (List Nat)) :
    (shuffleAll qs perms).length = qs.length := by
  induction qs generalizing perms with
  | nil => simp [shuffleAll]
  | cons q t ih =>
      cases perms <;> simp [shuffleAll, ih]

theorem shuffleAll_map_id (qs : List Question) (perms : List (List Nat)) :
    (shuffleAll qs perms).map Question.id = qs.map Question.id := by
  induction qs generalizing perms with
  | nil => simp [shuffleAll]
  | cons q t ih =>
      cases perms <;> simp [shuffleAll, ih, applyShuffle_id]

theorem sampleAt_length (pool : List Question) (sel : List Nat)
    (h : ∀ i ∈ sel, i < pool.length) :
    (sampleAt pool sel).length = sel.length := by
  induction sel with
  | nil => simp [sampleAt]
  | cons i t ih =>
      have hi : i < pool.length := h i (List.mem_cons_self i t)
      have ht : ∀ j ∈ t, j < pool.length := fun j hj => h j (List.mem_cons_of_mem i hj)
      simp [sampleAt, List.getElem?_eq_getElem hi] at ih ⊢
      exact ih ht

theorem sampleAt_map_id (pool : List Question) (sel : List Nat)
    (h : ∀ i ∈ sel, i < pool.length) :
    (sampleAt pool sel).map Question.id
      = sel.map (fun i => ((pool.map Question.id).getD i 0)) := by
  induction sel with
  | nil => simp [sampleAt]
  | cons i t ih =>
      have hi : i < pool.length := h i (List.mem_cons_self i t)
      have ht : ∀ j ∈ t, j < pool.length := fun j hj => h j (List.mem_cons_of_mem i hj)
      have hgd : (pool.map Question.id).getD i 0 = pool[i].id := by
        have hi2 : i < (pool.map Question.id).length := by simpa using hi
        rw [List.getD_eq_getElem _ _ hi2]
        simp
      have ih2 := ih ht
      simp only [sampleAt] at ih2
      simp only [sampleAt, List.filterMap_cons, List.getElem?_eq_getElem hi, List.map_cons]
      rw [hgd, ih2]

theorem sampleAt_id_nodup (pool : List Question) (sel : List Nat)
    (hpool : (pool.map Question.id).Nodup) (hsel : sel.Nodup)
    (hrange : ∀ i ∈ sel, i < pool.length) :
    ((sampleAt pool sel).map Question.id).Nodup := by
  rw [sampleAt_map_id pool sel hrange]
  refine List.Nodup.map_on ?_ hsel
  intro i hi j hj hij
  have hi2 : i < (pool.map Question.id).length := by simpa using hrange i hi
  have hj2 : j < (pool.map Question.id).length := by simpa using hrange j hj
  rw [List.getD_eq_getElem _ _ hi2, List.getD_eq_getElem _ _ hj2] at hij
  exact (List.Nodup.getElem_inj_iff hpool).mp hij

theorem foldl_count {α : Type} (p : α → Prop) [DecidablePred p] (l : List α) (n : Nat) :
    l.foldl (fun acc x => acc + (if p x then 1 else 0)) n
      = n + (l.filter (fun x => decide (p x))).length := by
  induction l generalizing n with
  | nil => simp
  | cons x t ih =>
      by_cases h : p x
      · simp [h, ih]
        omega
      · simp [h, ih]

/-- The part of the spec's progress invariant that the Submit handler does
maintain: both result sets stay inside `attempted`. -/
def ProgressInv (p : UserProgress) : Prop :=
  p.correct ⊆ p.attempted ∧ p.incorrect ⊆ p.attempted

theorem recordAttempt_progressInv (p : UserProgress) (qid : Nat) (b : Bool) (now : Nat)
    (h : ProgressInv p) : ProgressInv (recordAttempt p qid b now) := by
  obtain ⟨h1, h2⟩ := h
  cases b <;> constructor <;> simp only [recordAttempt, if_true, if_false, Bool.false_eq_true]
  · exact h1.trans (Finset.subset_insert _ _)
  · exact Finset.insert_subset_insert _ h2
  · exact Finset.insert_subset_insert _ h1
  · exact h2.trans (Finset.subset_insert _ _)

theorem foldl_progressInv (l : List (Nat × Bool × Nat)) (p : UserProgress)
    (h : ProgressInv p) :
    ProgressInv (l.foldl (fun p x => recordAttempt p x.1 x.2.1 x.2.2) p) := by
  induction l generalizing p with
  | nil => exact h
  | cons x t ih => exact ih _ (recordAttempt_progressInv _ _ _ _ h)

/-- Per-entry counter invariant of the stats dict. -/
def StatsInv (s : List (Nat × QStats)) : Prop :=
  ∀ qid e, alLookup s qid = some e → e.attempts = e.correct + e.incorrect

theorem save_stats_statsInv (s : List (Nat × QStats)) (qid : Nat) (b : Bool) (now : Nat)
    (h : StatsInv s) : StatsInv (save_stats s qid b now) := by
  intro qid2 e he
  unfold save_stats at he
  rw [alLookup_alUpdate] at he
  by_cases hq : qid = qid2
  · subst hq
    simp only [if_pos rfl] at he
    have hcur : ((alLookup s qid).getD
        { attempts := 0, correct := 0, incorrect := 0, last_seen := none }).attempts
        = ((alLookup s qid).getD
        { attempts := 0, correct := 0, incorrect := 0, last_seen := none }).correct
        + ((alLookup s qid).getD
        { attempts := 0, correct := 0, incorrect := 0, last_seen := none }).incorrect := by
      cases hl : alLookup s qid with
      | none => simp
      | some e0 => simpa using h qid e0 hl
    injection he with he2
    subst he2
    cases b <;> simp <;> omega
  · rw [if_neg hq] at he
    exact h qid2 e he

theorem foldl_statsInv (l : List (Nat × Bool × Nat)) (p : UserProgress)
    (h : StatsInv p.stats) :
    StatsInv ((l.foldl (fun p x => recordAttempt p x.1 x.2.1 x.2.2) p).stats) := by
  induction l generalizing p with
  | nil => exact h
  | cons x t ih =>
      exact ih _ (save_stats_statsInv _ _ _ _ h)

/-! ### Claims -/

/-- C4: a question enters the pool iff the chosen filter set is empty or at
least one chosen predicate among unused / incorrect / marked holds for it
(OR semantics); in particular, with filters {unused, marked}, a question that
is marked but already attempted is still admitted. -/
theorem C4_filter_or_semantics :
    (∀ (filters : List String) (p : UserProgress) (q : Question),
      allow filters p q = true ↔
        (filters = [] ∨
          ("unused" ∈ filters ∧ q.id ∉ p.attempted) ∨
          ("incorrect" ∈ filters ∧ q.id ∈ p.incorrect) ∨
          ("marked" ∈ filters ∧ q.id ∈ p.marked))) ∧
    (∀ (p : UserProgress) (q : Question),
      q.id ∈ p.marked → q.id ∈ p.attempted →
        allow ["unused", "marked"] p q = true) := by
  constructor
  · intro filters p q
    by_cases h1 : "unused" ∈ filters <;>
      by_cases h2 : "incorrect" ∈ filters <;>
        by_cases h3 : "marked" ∈ filters <;>
          simp [allow, h1, h2, h3, List.isEmpty_iff, List.ne_nil_of_mem]
  · intro p q hm _
    simp [allow, hm]

/-- C4 witness: with filters {unused, marked}, a question whose id is both
marked and attempted is admitted. -/
theorem C4_filter_or_semantics_witness :
    allow ["unused", "marked"]
      { emptyProgress with marked := {1}, attempted := {1} } demoQ1 = true :=
  C4_filter_or_semantics.2 _ _ (by decide) (by decide)

/-- C3: when the filtered pool is smaller than the requested count, the Start
handler warns and stops: the session does not start and the whole app state
(session dict and user progress) is unchanged. -/
theorem C3_insufficient_pool (a : AppState) (questions : List Question)
    (selectedSystems filters : List String) (numQ : Nat) (mode : String)
    (sel : List Nat) (perms : List (List Nat)) (now : Nat)
    (h : (filteredPool questions selectedSystems filters a.progress).length < numQ) :
    stepOp a (Op.start questions selectedSystems filters numQ mode sel perms now) = a := by
  by_cases hst : a.session.started <;>
    simp [stepOp, startSession, hst, h]

/-- C3 witness: asking for one question out of an empty dataset leaves the
fresh app state unchanged. -/
theorem C3_insufficient_pool_witness :
    stepOp initApp (Op.start [] [] [] 1 "reading" [] [] 0) = initApp :=
  C3_insufficient_pool initApp [] [] [] 1 "reading" [] [] 0 (by decide)

/-- C6: the Submit handler grades by exact string equality with the question's
`answer`: the equal string goes to `correct` (and `incorrect` is untouched),
any other string goes to `incorrect` (and `correct` is untouched). -/
theorem C6_exact_match (a : AppState) (choice : String) (now : Nat) (q : Question)
    (hs : a.session.started = true) (ho : a.session.session_over = false)
    (hq : a.session.session_questions[a.session.current_index]? = some q) :
    (choice = q.answer →
      q.id ∈ (stepOp a (Op.submit choice now)).progress.correct ∧
      (stepOp a (Op.submit choice now)).progress.incorrect = a.progress.incorrect) ∧
    (choice ≠ q.answer →
      q.id ∈ (stepOp a (Op.submit choice now)).progress.incorrect ∧
      (stepOp a (Op.submit choice now)).progress.correct = a.progress.correct) := by
  constructor
  · intro hc
    simp [stepOp, hs, ho, hq, recordAttempt, hc]
  · intro hc
    simp [stepOp, hs, ho, hq, recordAttempt, hc]

/-- C6 witness: in the demo session, submitting the exact answer string "A"
records question 1 as correct, while submitting "B" leaves `correct` empty. -/
theorem C6_exact_match_witness :
    1 ∈ (stepOp demoApp (Op.submit "A" 5)).progress.correct ∧
    (stepOp demoApp (Op.submit "B" 5)).progress.correct = emptyProgress.correct := by
  constructor
  · exact ((C6_exact_match demoApp "A" 5 demoQ1 rfl rfl rfl).1 rfl).1
  · exact ((C6_exact_match demoApp "B" 5 demoQ1 rfl rfl rfl).2 (by decide)).2

/-- C1 (counterexample): the Submit handler adds the id to one of the two sets
but never removes it from the other, so answering question 1 incorrectly and
then correctly leaves id 1 in both `correct` and `incorrect` — the sets do not
stay disjoint. -/
theorem C1_counterexample :
    1 ∈ (runAttempts [(1, false, 0), (1, true, 1)]).correct ∧
    1 ∈ (runAttempts [(1, false, 0), (1, true, 1)]).incorrect := by
  decide

/-- C1 (amended): each recorded attempt adds the id to `attempted` and to the
set matching its correctness, leaving the other set as it is; hence after any
sequence of attempts on a fresh user, `correct` and `incorrect` are subsets of
`attempted`, but they need not be disjoint. -/
theorem C1_amended :
    (∀ (p : UserProgress) (qid : Nat) (b : Bool) (now : Nat),
      (recordAttempt p qid b now).attempted = insert qid p.attempted ∧
      (recordAttempt p qid b now).correct
        = (if b then insert qid p.correct else p.correct) ∧
      (recordAttempt p qid b now).incorrect
        = (if b then p.incorrect else insert qid p.incorrect)) ∧
    (∀ l : List (Nat × Bool × Nat),
      (runAttempts l).correct ⊆ (runAttempts l).attempted ∧
      (runAttempts l).incorrect ⊆ (runAttempts l).attempted) := by
  constructor
  · intro p qid b now
    exact ⟨rfl, rfl, rfl⟩
  · intro l
    exact foldl_progressInv l emptyProgress ⟨Finset.Subset.refl _, Finset.Subset.refl _⟩

/-- C10: each `save_stats` call bumps `attempts` by one and exactly one of the
`correct`/`incorrect` counters, stamping `last_seen`; consequently every stats
entry reachable by a sequence of recorded attempts from a fresh user satisfies
`attempts = correct + incorrect`. -/
theorem C10_stats_invariant :
    (∀ (p : UserProgress) (qid : Nat) (b : Bool) (now : Nat),
      alLookup (recordAttempt p qid b now).stats qid =
        some { attempts := ((alLookup p.stats qid).getD
                  { attempts := 0, correct := 0, incorrect := 0, last_seen := none }).attempts + 1
               correct := ((alLookup p.stats qid).getD
                  { attempts := 0, correct := 0, incorrect := 0, last_seen := none }).correct
                  + (if b then 1 else 0)
               incorrect := ((alLookup p.stats qid).getD
                  { attempts := 0, correct := 0, incorrect := 0, last_seen := none }).incorrect
                  + (if b then 0 else 1)
               last_seen := some now }) ∧
    (∀ (l : List (Nat × Bool × Nat)) (qid : Nat) (e : QStats),
      alLookup (runAttempts l).stats qid = some e →
        e.attempts = e.correct + e.incorrect) := by
  constructor
  · intro p qid b now
    simp [recordAttempt, save_stats, alLookup_alUpdate]
  · intro l qid e he
    exact foldl_statsInv l emptyProgress (fun _ _ h => by simp [emptyProgress, alLookup] at h)
      qid e he

/-- C10 witness: one correct attempt on question 1 at time 5 yields the entry
(attempts 1, correct 1, incorrect 0, last seen 5), and 1 = 1 + 0. -/
theorem C10_stats_invariant_witness :
    alLookup (runAttempts [(1, true, 5)]).stats 1
      = some { attempts := 1, correct := 1, incorrect := 0, last_seen := some 5 } ∧
    (1 : Nat) = 1 + 0 := by
  constructor
  · decide
  · exact C10_stats_invariant.2 [(1, true, 5)] 1
      { attempts := 1, correct := 1, incorrect := 0, last_seen := some 5 } (by decide)

/-- C5: in test mode the timer block forces `session_over` whenever it runs
with `elapsed() ≥ time_limit`, whatever the current position is; and a test
session started with `num_q` questions has `time_limit = 90 * num_q` (so 180
seconds for two questions). -/
theorem C5_test_timeout :
    (∀ (a : AppState) (now tl : Nat),
      a.session.started = true → a.session.session_over = false →
      a.session.mode = "test" → a.session.time_limit = some tl →
      tl ≤ elapsed a.session now →
      (stepOp a (Op.tick now)).session.session_over = true) ∧
    (∀ (st : SessionState) (p : UserProgress) (questions : List Question)
        (selectedSystems filters : List String) (numQ : Nat)
        (sel : List Nat) (perms : List (List Nat)) (now : Nat),
      st.started = false →
      numQ ≤ (filteredPool questions selectedSystems filters p).length →
      (startSession st p questions selectedSystems filters numQ "test"
          sel perms now).time_limit = some (90 * numQ)) := by
  constructor
  · intro a now tl hs ho hm ht hle
    have hcond : (tl : Int) - (elapsed a.session now : Int) ≤ 0 := by omega
    simp [stepOp, hs, ho, hm, ht, hcond]
  · intro st p questions selectedSystems filters numQ sel perms now hst hge
    simp [startSession, hst, Nat.not_lt.mpr hge]

/-- C5 witness: a test session over two questions gets `time_limit = 180`, and
a tick 181 seconds after its start (with no interaction) ends it mid-question. -/
theorem C5_test_timeout_witness :
    (startSession initSession emptyProgress [demoQ1, demoQ2] [] [] 2 "test"
        [0, 1] [] 0).time_limit = some 180 ∧
    (stepOp
        { session := startSession initSession emptyProgress [demoQ1, demoQ2] [] [] 2 "test"
            [0, 1] [] 0
          progress := emptyProgress }
        (Op.tick 181)).session.session_over = true := by
  constructor
  · exact C5_test_timeout.2 initSession emptyProgress [demoQ1, demoQ2] [] [] 2 [0, 1] [] 0
      rfl (by decide)
  · exact C5_test_timeout.1 _ 181 180 (by decide) (by decide) (by decide) (by decide)
      (by decide)

/-- C7: on the summary page the score counts exactly the session questions
whose recorded answer is string-equal to their `answer` field; an unanswered
question fails that comparison (so it contributes nothing to the score) and
is rendered with the placeholder dash in the review list. -/
theorem C7_summary_score (st : SessionState) (_hover : st.session_over = true) :
    score st = (st.session_questions.filter
        (fun q => decide (alLookup st.answers q.id = some q.answer))).length ∧
    (∀ q ∈ st.session_questions, alLookup st.answers q.id = none →
      ¬ (alLookup st.answers q.id = some q.answer) ∧
      (q.question, "—", q.answer, q.explanation) ∈ reviewList st) := by
  constructor
  · simpa using foldl_count (fun q => alLookup st.answers q.id = some q.answer)
      st.session_questions 0
  · intro q hq hnone
    refine ⟨by simp [hnone], ?_⟩
    have : (q.question, (alLookup st.answers q.id).getD "—", q.answer, q.explanation)
        ∈ reviewList st := List.mem_map_of_mem _ hq
    simpa [hnone] using this

/-- C7 witness: in the finished demo session (question 1 answered "A",
question 2 unanswered) the score counts one question, and question 2 appears
in the review list with the placeholder dash. -/
theorem C7_summary_score_witness :
    score demoOverSession = (demoOverSession.session_questions.filter
        (fun q => decide (alLookup demoOverSession.answers q.id = some q.answer))).length ∧
    (demoQ2.question, "—", demoQ2.answer, demoQ2.explanation) ∈ reviewList demoOverSession := by
  constructor
  · exact (C7_summary_score demoOverSession rfl).1
  · exact ((C7_summary_score demoOverSession rfl).2 demoQ2 (by decide) (by decide)).2

/-- The Start handler either leaves the session dict alone or produces a fresh
session with the cursor at 0 and the explanation pane hidden. -/
theorem startSession_cases (st : SessionState) (p : UserProgress) (questions : List Question)
    (selectedSystems filters : List String) (numQ : Nat) (mode : String)
    (sel : List Nat) (perms : List (List Nat)) (now : Nat) :
    startSession st p questions selectedSystems filters numQ mode sel perms now = st ∨
    ((startSession st p questions selectedSystems filters numQ mode sel perms now).current_index = 0 ∧
     (startSession st p questions selectedSystems filters numQ mode sel perms now).show_explanation = false) := by
  unfold startSession
  split
  · exact Or.inl rfl
  · split
    · exact Or.inl rfl
    · exact Or.inr ⟨rfl, rfl⟩

/-- Cursor invariant maintained by every handler: the cursor never passes the
end of the session list, and whenever the explanation pane (and with it the
Next button) is rendered, the cursor is on a real question. -/
def IndexInv (a : AppState) : Prop :=
  a.session.current_index ≤ a.session.session_questions.length ∧
  (a.session.show_explanation = true →
    a.session.current_index < a.session.session_questions.length)

theorem stepOp_indexInv (a : AppState) (op : Op) (h : IndexInv a) :
    IndexInv (stepOp a op) := by
  obtain ⟨h1, h2⟩ := h
  cases op with
  | start questions selectedSystems filters numQ mode sel perms now =>
      simp only [stepOp]
      rcases startSession_cases a.session a.progress questions selectedSystems filters
          numQ mode sel perms now with hcase | ⟨hidx, hshow⟩
      · rw [hcase]
        exact ⟨h1, h2⟩
      · refine ⟨?_, ?_⟩
        · rw [hidx]
          exact Nat.zero_le _
        · intro hs
          rw [hshow] at hs
          exact absurd hs (by simp)
  | submit choice now =>
      simp only [stepOp]
      by_cases hg : (a.session.started && !a.session.session_over) = true
      · rw [if_pos hg]
        cases hq : a.session.session_questions[a.session.current_index]? with
        | none => exact ⟨h1, h2⟩
        | some q =>
            have hlt : a.session.current_index < a.session.session_questions.length := by
              exact List.getElem?_eq_some.mp hq |>.1
            exact ⟨h1, fun _ => hlt⟩
      · rw [if_neg hg]
        exact ⟨h1, h2⟩
  | next =>
      simp only [stepOp]
      by_cases hg : (a.session.started && !a.session.session_over
          && a.session.show_explanation) = true
      · rw [if_pos hg]
        have hsh : a.session.show_explanation = true := by
          simp only [Bool.and_eq_true] at hg
          exact hg.2
        have hlt := h2 hsh
        refine ⟨?_, ?_⟩
        · exact hlt
        · intro hs
          exact absurd hs (by simp)
      · rw [if_neg hg]
        exact ⟨h1, h2⟩
  | tick now =>
      simp only [stepOp]
      split
      · split
        · split
          · exact ⟨h1, h2⟩
          · exact ⟨h1, h2⟩
        · exact ⟨h1, h2⟩
      · exact ⟨h1, h2⟩
  | newSession =>
      simp only [stepOp]
      split
      · exact ⟨h1, h2⟩
      · exact ⟨h1, h2⟩

theorem foldl_indexInv (ops : List Op) (a : AppState) (h : IndexInv a) :
    IndexInv (ops.foldl stepOp a) := by
  induction ops generalizing a with
  | nil => exact h
  | cons op t ih => exact ih _ (stepOp_indexInv _ _ h)

/-- C8: along every interaction sequence from a fresh login, the cursor obeys
`0 ≤ current_index ≤ len(session_questions)` (the lower bound is by the `Nat`
index type); it never passes the end of the session list. -/
theorem C8_index_bounds (ops : List Op) :
    0 ≤ (runOps ops).session.current_index ∧
    (runOps ops).session.current_index
      ≤ (runOps ops).session.session_questions.length := by
  refine ⟨Nat.zero_le _, ?_⟩
  exact (foldl_indexInv ops initApp ⟨Nat.zero_le _, by intro h; simp [initApp, initSession] at h⟩).1

/-- C9: a successful start draws exactly `num_q` questions from the filtered
pool at distinct positions (`random.sample` semantics), so when the pool's ids
are distinct the session list has no duplicate ids; option shuffling does not
change ids. -/
theorem C9_sample_without_replacement (st : SessionState) (p : UserProgress)
    (questions : List Question) (selectedSystems filters : List String)
    (numQ : Nat) (mode : String) (sel : List Nat) (perms : List (List Nat)) (now : Nat)
    (hst : st.started = false)
    (hpool : numQ ≤ (filteredPool questions selectedSystems filters p).length)
    (hlen : sel.length = numQ) (hnd : sel.Nodup)
    (hrange : ∀ i ∈ sel, i < (filteredPool questions selectedSystems filters p).length)
    (hpoolids : ((filteredPool questions selectedSystems filters p).map Question.id).Nodup) :
    (startSession st p questions selectedSystems filters numQ mode sel perms
        now).session_questions.length = numQ ∧
    ((startSession st p questions selectedSystems filters numQ mode sel perms
        now).session_questions.map Question.id).Nodup := by
  have hq : (startSession st p questions selectedSystems filters numQ mode sel perms
        now).session_questions
      = shuffleAll (sampleAt (filteredPool questions selectedSystems filters p) sel) perms := by
    simp [startSession, hst, Nat.not_lt.mpr hpool]
  rw [hq]
  constructor
  · rw [shuffleAll_length, sampleAt_length _ _ hrange, hlen]
  · rw [shuffleAll_map_id]
    exact sampleAt_id_nodup _ _ hpoolids hnd hrange

/-- C9 witness: sampling positions 1 and 0 from the two-question dataset gives
a session of length two with distinct ids. -/
theorem C9_sample_without_replacement_witness :
    (startSession initSession emptyProgress [demoQ1, demoQ2] [] [] 2 "reading"
        [1, 0] [] 0).session_questions.length = 2 ∧
    ((startSession initSession emptyProgress [demoQ1, demoQ2] [] [] 2 "reading"
        [1, 0] [] 0).session_questions.map Question.id).Nodup :=
  C9_sample_without_replacement initSession emptyProgress [demoQ1, demoQ2] [] [] 2
    "reading" [1, 0] [] 0 rfl (by decide) (by decide) (by decide) (by decide) (by decide)

/-- C2: starting a session never writes the canonical question store held by
`st.cache_data`: the cached records survive any start call unchanged, and the
next rerun's `load_questions()` copy equals the original cached list, option
order included — the in-place option shuffle lands only in the rerun's
per-session copy. -/
theorem C2_canonical_store_immutable (ps : ProcState) (st : SessionState) (p : UserProgress)
    (selectedSystems filters : List String) (numQ : Nat) (mode : String)
    (sel : List Nat) (perms : List (List Nat)) (now : Nat) :
    (startSessionProc ps st p selectedSystems filters numQ mode sel perms now).1.cache
      = ps.cache ∧
    (loadQuestions
        (startSessionProc ps st p selectedSystems filters numQ mode sel perms now).1).questions
      = ps.cache := by
  unfold startSessionProc loadQuestions
  split
  · exact ⟨rfl, rfl⟩
  · split
    · exact ⟨rfl, rfl⟩
    · exact ⟨rfl, rfl⟩

end Quiz
